import Mathlib

/-!
Verification development for the civicform middleware: a shallow embedding of
the submission-queue and structure-cache data access layer (src/database.js),
the Hono data-access helper (src/unnamed/part_000) and the HTTP handlers
(src/index.js, src/unnamed/part_000), together with proofs of the behavioral
claims about them.

Modelling conventions:
- JSON documents are an inductive tree `Json`; numbers are modelled as
  integers (the double-precision float aspects of JS numbers are out of the
  scope of this embedding).
- `JSON.stringify` / `JSON.parse` are embedded as `jsonStringify` /
  `jsonParse` (compact printing, standard escaping; the parser is fuelled by
  the input length, which suffices, as proved below).
- SQL tables are lists of row structures in insertion (rowid) order; the
  `dbOps` functions are translated one-for-one from src/database.js.
- timestamps (`CURRENT_TIMESTAMP`, `Date.now()`, `new Date().toISOString()`)
  are supplied by the caller as explicit parameters.
- `Math.random().toString(36)` is modelled by the list of base-36 fractional
  digits of the drawn double (empty exactly when the draw is 0; a positive
  double has a finite, non-empty canonical base-36 expansion).
-/

namespace CivicForm

/-- JSON value tree. Numbers are modelled as integers. -/
inductive Json where
  | null
  | bool (b : Bool)
  | num (n : Int)
  | str (s : String)
  | arr (items : List Json)
  | obj (fields : List (String × Json))
deriving Repr

/-- decimal digit character, `d < 10` intended. -/
def digitCh (d : Nat) : Char := Char.ofNat (48 + d)

/-- lowercase hexadecimal digit character, `d < 16` intended. -/
def hexCh (d : Nat) : Char := if d < 10 then Char.ofNat (48 + d) else Char.ofNat (87 + d)

/-- decimal digits of `n`, most significant first; fuelled (fuel `n` suffices). -/
def natDecAux : Nat → Nat → List Char
  | 0, _ => []
  | f + 1, n => if n = 0 then [] else natDecAux f (n / 10) ++ [digitCh (n % 10)]

/-- decimal representation of a natural number, as JS renders it. -/
def natDecChars (n : Nat) : List Char := if n = 0 then ['0'] else natDecAux n n

/-- decimal representation of a natural number as a string. -/
def natDec (n : Nat) : String := (natDecChars n).asString

/-- decimal representation of an integer, as JSON.stringify renders it. -/
def intChars (n : Int) : List Char :=
  if n < 0 then '-' :: natDecChars n.natAbs else natDecChars n.toNat

/-- JSON string escaping of one character, as JSON.stringify performs it. -/
def escChar (c : Char) : List Char :=
  if c = '"' then ['\\', '"']
  else if c = '\\' then ['\\', '\\']
  else if c = '\x08' then ['\\', 'b']
  else if c = '\x09' then ['\\', 't']
  else if c = '\x0a' then ['\\', 'n']
  else if c = '\x0c' then ['\\', 'f']
  else if c = '\x0d' then ['\\', 'r']
  else if c.toNat < 32 then ['\\', 'u', '0', '0', hexCh (c.toNat / 16), hexCh (c.toNat % 16)]
  else [c]

/-- JSON string escaping of a character list. -/
def escChars (cs : List Char) : List Char := (cs.map escChar).flatten

/-- quoted, escaped JSON rendering of a string. -/
def strChars (s : String) : List Char := '"' :: (escChars s.data ++ ['"'])

mutual
/-- compact JSON rendering of a value (character list of `JSON.stringify`). -/
def emitVal : Json → List Char
  | .null => "null".data
  | .bool true => "true".data
  | .bool false => "false".data
  | .num n => intChars n
  | .str s => strChars s
  | .arr l => '[' :: emitArr l
  | .obj l => '\x7b' :: emitObj l

/-- rendering of an array body (after the opening bracket). -/
def emitArr : List Json → List Char
  | [] => [']']
  | v :: vs => emitVal v ++ emitArrTail vs

/-- rendering of the remaining array elements, each preceded by a comma. -/
def emitArrTail : List Json → List Char
  | [] => [']']
  | v :: vs => ',' :: (emitVal v ++ emitArrTail vs)

/-- rendering of an object body (after the opening brace). -/
def emitObj : List (String × Json) → List Char
  | [] => ['\x7d']
  | (k, v) :: ms => strChars k ++ ':' :: emitVal v ++ emitObjTail ms

/-- rendering of the remaining object members, each preceded by a comma. -/
def emitObjTail : List (String × Json) → List Char
  | [] => ['\x7d']
  | (k, v) :: ms => ',' :: (strChars k ++ ':' :: emitVal v ++ emitObjTail ms)
end

mutual
/-- nesting measure of a value, used to fuel the parser. -/
def sizeV : Json → Nat
  | .null => 1
  | .bool _ => 1
  | .num _ => 1
  | .str _ => 1
  | .arr l => 1 + sizeA l
  | .obj l => 1 + sizeO l

/-- nesting measure of an array tail. -/
def sizeA : List Json → Nat
  | [] => 1
  | v :: vs => 1 + max (sizeV v) (sizeA vs)

/-- nesting measure of an object tail. -/
def sizeO : List (String × Json) → Nat
  | [] => 1
  | (_, v) :: ms => 1 + max (sizeV v) (sizeO ms)
end

/-- value of a lowercase/uppercase hexadecimal digit character. -/
def hexVal (c : Char) : Nat :=
  if c.isDigit then c.toNat - 48
  else if 'a' ≤ c ∧ c ≤ 'f' then c.toNat - 87
  else c.toNat - 55

/-- hexadecimal digit recognizer. -/
def isHexCh (c : Char) : Bool :=
  c.isDigit || ('a' ≤ c && c ≤ 'f') || ('A' ≤ c && c ≤ 'F')

/-- decoding of a single-character JSON escape (after the backslash). -/
def escDecode (c : Char) : Option Char :=
  if c = '"' then some '"'
  else if c = '\\' then some '\\'
  else if c = '/' then some '/'
  else if c = 'b' then some '\x08'
  else if c = 't' then some '\x09'
  else if c = 'n' then some '\x0a'
  else if c = 'f' then some '\x0c'
  else if c = 'r' then some '\x0d'
  else none

/-- parser for a JSON string body (after the opening quote): returns the
decoded characters and the remaining input after the closing quote. -/
def parseStrChars : List Char → Option (List Char × List Char)
  | [] => none
  | c :: rest =>
    if c = '"' then some ([], rest)
    else if c = '\\' then
      match rest with
      | [] => none
      | e :: rest2 =>
        if e = 'u' then
          match rest2 with
          | h1 :: h2 :: h3 :: h4 :: rest3 =>
            if isHexCh h1 && isHexCh h2 && isHexCh h3 && isHexCh h4 then
              (parseStrChars rest3).map
                (fun p =>
                  (Char.ofNat (((hexVal h1 * 16 + hexVal h2) * 16 + hexVal h3) * 16 + hexVal h4)
                    :: p.1, p.2))
            else none
          | _ => none
        else
          match escDecode e with
          | some d => (parseStrChars rest2).map (fun p => (d :: p.1, p.2))
          | none => none
    else (parseStrChars rest).map (fun p => (c :: p.1, p.2))

/-- numeric value of a list of decimal digit characters. -/
def digitsVal (ds : List Char) : Nat := ds.foldl (fun a c => 10 * a + (c.toNat - 48)) 0

/-- maximal leading run of decimal digits, and the rest. -/
def leadingDigits (cs : List Char) : List Char × List Char :=
  (cs.takeWhile Char.isDigit, cs.dropWhile Char.isDigit)

mutual
/-- fuelled JSON value parser (the fuel only bounds nesting; input length + 1
is always enough fuel, as proved below). -/
def parseVal : Nat → List Char → Option (Json × List Char)
  | 0, _ => none
  | _ + 1, [] => none
  | f + 1, c :: rest =>
    if c = 'n' then
      match rest with
      | 'u' :: 'l' :: 'l' :: r => some (.null, r)
      | _ => none
    else if c = 't' then
      match rest with
      | 'r' :: 'u' :: 'e' :: r => some (.bool true, r)
      | _ => none
    else if c = 'f' then
      match rest with
      | 'a' :: 'l' :: 's' :: 'e' :: r => some (.bool false, r)
      | _ => none
    else if c = '"' then
      (parseStrChars rest).map (fun p => (.str p.1.asString, p.2))
    else if c = '[' then
      if rest.head? = some ']' then some (.arr [], rest.tail)
      else
        match parseVal f rest with
        | none => none
        | some (v, r) =>
          match parseArrRest f r with
          | none => none
          | some (vs, r2) => some (.arr (v :: vs), r2)
    else if c = '\x7b' then
      if rest.head? = some '\x7d' then some (.obj [], rest.tail)
      else
        match rest with
        | '"' :: kr =>
          match parseStrChars kr with
          | none => none
          | some (k, r1) =>
            match r1 with
            | ':' :: r2 =>
              match parseVal f r2 with
              | none => none
              | some (v, r3) =>
                match parseObjRest f r3 with
                | none => none
                | some (ms, r4) => some (.obj ((k.asString, v) :: ms), r4)
            | _ => none
        | _ => none
    else if c = '-' then
      let p := leadingDigits rest
      if p.1.isEmpty then none else some (.num (-(digitsVal p.1 : Int)), p.2)
    else if c.isDigit then
      let p := leadingDigits (c :: rest)
      some (.num (digitsVal p.1), p.2)
    else none

/-- fuelled parser for the rest of an array (a comma and a value, repeated,
then the closing bracket). -/
def parseArrRest : Nat → List Char → Option (List Json × List Char)
  | 0, _ => none
  | _ + 1, ']' :: r => some ([], r)
  | f + 1, ',' :: r =>
    match parseVal f r with
    | none => none
    | some (v, r1) =>
      match parseArrRest f r1 with
      | none => none
      | some (vs, r2) => some (v :: vs, r2)
  | _ + 1, _ => none

/-- fuelled parser for the rest of an object (a comma and a member, repeated,
then the closing brace). -/
def parseObjRest : Nat → List Char → Option (List (String × Json) × List Char)
  | 0, _ => none
  | _ + 1, '\x7d' :: r => some ([], r)
  | f + 1, ',' :: r =>
    match r with
    | '"' :: kr =>
      match parseStrChars kr with
      | none => none
      | some (k, r1) =>
        match r1 with
        | ':' :: r2 =>
          match parseVal f r2 with
          | none => none
          | some (v, r3) =>
            match parseObjRest f r3 with
            | none => none
            | some (ms, r4) => some ((k.asString, v) :: ms, r4)
        | _ => none
    | _ => none
  | _ + 1, _ => none
end

/-- embedding of `JSON.stringify` (compact form, as Node emits it). -/
def jsonStringify (j : Json) : String := (emitVal j).asString

/-- embedding of `JSON.parse`: parse the whole string, rejecting trailing
garbage. -/
def jsonParse (s : String) : Option Json :=
  match parseVal (s.length + 1) s.data with
  | some (j, []) => some j
  | _ => none

/-- HTTP response: status code and JSON body. -/
structure HttpResponse where
  status : Nat
  body : Json
deriving Repr

/-- a thrown JS `Error`: message, name and stack, as the logging helper
destructures it. -/
structure JsError where
  message : String
  name : String
  stack : String
deriving Repr, DecidableEq

/-- JS truthiness of an optional string (`undefined` and `''` are falsy). -/
def strTruthy : Option String → Bool
  | none => false
  | some s => s != ""

/-- JS truthiness of an optional JSON value (`undefined`, `null`, `false`,
`0` and `''` are falsy). -/
def jsTruthy : Option Json → Bool
  | none => false
  | some .null => false
  | some (.bool b) => b
  | some (.num n) => n != 0
  | some (.str s) => s != ""
  | some (.arr _) => true
  | some (.obj _) => true

/-- enumerable own fields contributed by a JS object spread `...x` (an object
spreads its fields; primitives contribute none — string index spreading is
out of the scope of this embedding). -/
def jsSpreadFields : Json → List (String × Json)
  | .obj fs => fs
  | _ => []

/-- setting a property in a JS object literal: an existing key keeps its
position and gets the new value, a fresh key is appended. -/
def setProp (fs : List (String × Json)) (k : String) (v : Json) : List (String × Json) :=
  if (fs.lookup k).isSome then fs.map (fun p => if p.1 = k then (k, v) else p)
  else fs ++ [(k, v)]

/-- the object literal `\x7b ...submission_data, timestamp, submission_id \x7d`
built by the submission handlers: both server fields overwrite any
caller-supplied value. -/
def withServerFields (data : Json) (iso subId : String) : List (String × Json) :=
  setProp (setProp (jsSpreadFields data) "timestamp" (Json.str iso)) "submission_id"
    (Json.str subId)

/-- base-36 digit character as JS `Number.prototype.toString` renders it
(`0`-`9` then `a`-`z`), `d < 36` intended. -/
def digitChar36 (d : Nat) : Char :=
  if d < 10 then Char.ofNat (48 + d) else Char.ofNat (87 + d)

/-- characters of `Math.random().toString(36)`, given the base-36 fractional
digits of the drawn double: `"0"` when the draw is exactly 0, otherwise
`"0."` followed by the digits (a positive double has a non-empty canonical
expansion). -/
def jsRandomToString36 (fracDigits : List Nat) : List Char :=
  if fracDigits.isEmpty then ['0']
  else '0' :: '.' :: fracDigits.map digitChar36

/-- `Math.random().toString(36).substring(2, 9)`: characters at indices
2 through 8. -/
def randomSuffix (fracDigits : List Nat) : String :=
  (((jsRandomToString36 fracDigits).drop 2).take 7).asString

/-- the generated submission id
`\x7bform_id\x7d_\x7bDate.now()\x7d_\x7bMath.random().toString(36).substring(2, 9)\x7d`. -/
def mkSubmissionId (formId : String) (nowMs : Nat) (fracDigits : List Nat) : String :=
  formId ++ "_" ++ natDec nowMs ++ "_" ++ randomSuffix fracDigits

/-- a row of the `webform_structures` table. -/
structure StructureRow where
  id : Nat
  webform_id : String
  structure_data : String
  version : Nat
  is_active : Bool
  created_at : Nat
  updated_at : Nat
deriving Repr, DecidableEq

/-- a row of the `submissions` table. -/
structure SubmissionRow where
  id : Nat
  submission_id : String
  form_id : String
  submission_data : String
  status : String
  retry_count : Nat
  created_at : Nat
  updated_at : Nat
  sent_at : Option String
  error_message : Option String
  user_agent : Option String
  ip_address : Option String
deriving Repr, DecidableEq

/-- `dbOps.saveWebformStructure`: `INSERT OR REPLACE INTO webform_structures
(webform_id, structure_data, updated_at) VALUES (?, ?, CURRENT_TIMESTAMP)` —
the row conflicting on the UNIQUE `webform_id` is deleted and a fresh row is
inserted with the column defaults (`version` 1, `is_active` TRUE,
`created_at` CURRENT_TIMESTAMP). -/
def saveWebformStructure (store : List StructureRow) (webformId : String)
    (structureData : Json) (rowId now : Nat) : List StructureRow :=
  store.filter (fun r => r.webform_id != webformId) ++
    [⟨rowId, webformId, jsonStringify structureData, 1, true, now, now⟩]

/-- `dbOps.getWebformStructure`: `SELECT ... WHERE webform_id = ? AND
is_active = TRUE`, first row. -/
def getWebformStructure (store : List StructureRow) (webformId : String) :
    Option StructureRow :=
  store.find? (fun r => r.webform_id == webformId && r.is_active)

/-- `dbOps.createSubmission`: `INSERT INTO submissions (submission_id,
form_id, submission_data, user_agent, ip_address) VALUES (?, ?, ?, ?, ?)` —
`status` takes its column default `'pending'`, `retry_count` 0, the
timestamps CURRENT_TIMESTAMP, `sent_at` and `error_message` NULL. -/
def createSubmission (store : List SubmissionRow) (submissionId formId : String)
    (submissionData : Json) (userAgent ipAddress : Option String) (rowId now : Nat) :
    List SubmissionRow :=
  store ++ [⟨rowId, submissionId, formId, jsonStringify submissionData, "pending", 0,
             now, now, none, none, userAgent, ipAddress⟩]

/-- `dbOps.getSubmissionsByStatus`: `SELECT * FROM submissions WHERE status =
? ORDER BY created_at ASC LIMIT ?` (a negative SQLite LIMIT means no limit).
The handler then maps `JSON.parse` over each row's `submission_data`; that
mapping is applied where the response is built. -/
def getSubmissionsByStatus (store : List SubmissionRow) (status : String) (limit : Int) :
    List SubmissionRow :=
  let sorted := (store.filter (fun r => r.status == status)).mergeSort
    (fun a b => decide (a.created_at ≤ b.created_at))
  if limit < 0 then sorted else sorted.take limit.toNat

/-- whether a row's `id` matches the `WHERE id = ?` binding; a `NaN` binding
reaches SQLite as NULL and matches no row. -/
def idMatches : Option Int → SubmissionRow → Bool
  | none, _ => false
  | some n, r => (r.id : Int) == n

/-- `dbOps.updateSubmissionStatus`: `UPDATE submissions SET status = ?,
error_message = ?, sent_at = ?, retry_count = retry_count + 1 (only when the
status is 'failed'), updated_at = CURRENT_TIMESTAMP WHERE id = ?`. Note
`sent_at` and `error_message` are set unconditionally to the bound values. -/
def updateSubmissionStatus (store : List SubmissionRow) (target : Option Int)
    (status : String) (errorMessage : Option String) (sentAt : Option String)
    (now : Nat) : List SubmissionRow :=
  store.map fun r =>
    if idMatches target r then
      { r with status := status, error_message := errorMessage, sent_at := sentAt,
               retry_count := if status == "failed" then r.retry_count + 1 else r.retry_count,
               updated_at := now }
    else r

/-- JS `parseInt` (base 10): skip spaces, optional sign, maximal run of
decimal digits; `none` models `NaN`. -/
def parseIntJs (s : String) : Option Int :=
  let cs := s.data.dropWhile (fun c => c == ' ')
  match cs with
  | '-' :: rest =>
    let ds := rest.takeWhile Char.isDigit
    if ds.isEmpty then none else some (-(digitsVal ds : Int))
  | '+' :: rest =>
    let ds := rest.takeWhile Char.isDigit
    if ds.isEmpty then none else some ((digitsVal ds : Int))
  | _ =>
    let ds := cs.takeWhile Char.isDigit
    if ds.isEmpty then none else some ((digitsVal ds : Int))

/-- the fixed generic server-error body every catch block sends. -/
def internalErrorBody : Json := Json.obj [("error", Json.str "Internal server error")]

/-- the 400 body of the submission handlers. -/
def missingSubmissionBody : Json :=
  Json.obj [("error", Json.str "Missing form_id or submission_data")]

/-- shared body of the two submission POST handlers; they differ only in
which key of the request params the form id is read from. `dbOutcome` is the
result of the awaited `createSubmission` call (`.error` = the store threw,
caught by the handler's catch block). -/
def submissionHandlerCore (formIdParam : Option String) (body : List (String × Json))
    (nowMs : Nat) (iso : String) (fracDigits : List Nat)
    (userAgent ipAddress : Option String) (dbOutcome : Except JsError Nat)
    (store : List SubmissionRow) : HttpResponse × List SubmissionRow :=
  let submissionData := body.lookup "submission_data"
  if strTruthy formIdParam && jsTruthy submissionData then
    match formIdParam, submissionData with
    | some fid, some sdata =>
      let submissionId := mkSubmissionId fid nowMs fracDigits
      let dataObj := Json.obj (withServerFields sdata iso submissionId)
      match dbOutcome with
      | .error _ => (⟨500, internalErrorBody⟩, store)
      | .ok dbId =>
        (⟨200, Json.obj [("success", Json.bool true),
                         ("message", Json.str "Submission received and saved"),
                         ("submission_id", Json.str submissionId),
                         ("db_id", Json.num dbId)]⟩,
         createSubmission store submissionId fid dataObj userAgent ipAddress dbId nowMs)
    | _, _ => (⟨400, missingSubmissionBody⟩, store)
  else (⟨400, missingSubmissionBody⟩, store)

/-- src/index.js, `app.post('/api/webform/:webform_id/submission')`:
`const \x7b form_id \x7d = req.params` reads the key `"form_id"` of the
params map, although the route declares the parameter as `:webform_id`. -/
def expressSubmissionHandler (params : List (String × String))
    (body : List (String × Json)) (nowMs : Nat) (iso : String) (fracDigits : List Nat)
    (userAgent ipAddress : Option String) (dbOutcome : Except JsError Nat)
    (store : List SubmissionRow) : HttpResponse × List SubmissionRow :=
  submissionHandlerCore (params.lookup "form_id") body nowMs iso fracDigits
    userAgent ipAddress dbOutcome store

/-- src/unnamed/part_000, `app.post('/api/webform/:webform_id/submission')`:
`const form_id = c.req.param('webform_id')` reads the declared route
parameter. -/
def honoSubmissionHandler (params : List (String × String))
    (body : List (String × Json)) (nowMs : Nat) (iso : String) (fracDigits : List Nat)
    (userAgent ipAddress : Option String) (dbOutcome : Except JsError Nat)
    (store : List SubmissionRow) : HttpResponse × List SubmissionRow :=
  submissionHandlerCore (params.lookup "webform_id") body nowMs iso fracDigits
    userAgent ipAddress dbOutcome store

/-- the 400 body of the status PATCH handler. -/
def invalidStatusBody : Json :=
  Json.obj [("error", Json.str "Invalid status. Must be: sent, failed, or processing")]

/-- `res.json(\x7b id: parseInt(id) \x7d)`: `NaN` serializes as JSON null. -/
def jsonOfParsedId : Option Int → Json
  | none => Json.null
  | some n => Json.num n

/-- `app.patch('/api/submissions/:id/status')`: validate the status enum,
then `updateSubmissionStatus(parseInt(id), status, error_message, sentAt)`
with `sentAt` the current ISO time only for `'sent'`; always replies 200
`Submission marked as ...` after the update, without checking that any row
was matched. -/
def patchStatusHandler (store : List SubmissionRow) (idStr : String)
    (body : List (String × Json)) (nowIso : String) (now : Nat) :
    HttpResponse × List SubmissionRow :=
  let errorMessage := match body.lookup "error_message" with
    | some (Json.str s) => some s
    | _ => none
  match body.lookup "status" with
  | some (Json.str s) =>
    if s = "sent" ∨ s = "failed" ∨ s = "processing" then
      let sentAt := if s = "sent" then some nowIso else none
      (⟨200, Json.obj [("success", Json.bool true),
                       ("message", Json.str ("Submission marked as " ++ s)),
                       ("id", jsonOfParsedId (parseIntJs idStr))]⟩,
       updateSubmissionStatus store (parseIntJs idStr) s errorMessage sentAt now)
    else (⟨400, invalidStatusBody⟩, store)
  | _ => (⟨400, invalidStatusBody⟩, store)

/-- one element of the pending-submissions response array (the row with its
`submission_data` passed through `JSON.parse`). -/
def submissionSummaryJson (r : SubmissionRow) : Json :=
  Json.obj [("id", Json.num r.id),
            ("submission_id", Json.str r.submission_id),
            ("form_id", Json.str r.form_id),
            ("data", (jsonParse r.submission_data).getD Json.null),
            ("created_at", Json.num r.created_at),
            ("retry_count", Json.num r.retry_count)]

/-- `app.get('/api/submissions/pending')`: `parseInt(req.query.limit) || 100`
then `getSubmissionsByStatus('pending', limit)`; a pure read of the store. -/
def pendingSubmissionsHandler (store : List SubmissionRow) (limitQuery : Option String) :
    HttpResponse × List SubmissionRow :=
  let limit : Int :=
    match limitQuery with
    | none => 100
    | some s =>
      match parseIntJs s with
      | none => 100
      | some n => if n = 0 then 100 else n
  let subs := getSubmissionsByStatus store "pending" limit
  (⟨200, Json.obj [("submissions", Json.arr (subs.map submissionSummaryJson)),
                   ("count", Json.num subs.length)]⟩, store)

/-- `app.get('/api/webform/:webform_id/structure')`: 404 with the missing id
echoed, or the stored document parsed back from its stored text. -/
def getStructureHandler (store : List StructureRow) (webformId : String) : HttpResponse :=
  match getWebformStructure store webformId with
  | none => ⟨404, Json.obj [("error", Json.str "Webform structure not found"),
                            ("webform_id", Json.str webformId)]⟩
  | some row => ⟨200, Json.obj [("webform_id", Json.str webformId),
                                ("structure", (jsonParse row.structure_data).getD Json.null),
                                ("created_at", Json.num row.created_at),
                                ("updated_at", Json.num row.updated_at)]⟩

/-- `app.get('/health')`: the catch branch of the health check puts the
underlying exception's `error.message` into the 503 body. -/
def healthHandler (settingOutcome : Except JsError (Option String)) (iso : String) :
    HttpResponse :=
  match settingOutcome with
  | .ok _ => ⟨200, Json.obj [("status", Json.str "healthy"),
                             ("timestamp", Json.str iso),
                             ("database", Json.str "connected"),
                             ("version", Json.str "2.0.0")]⟩
  | .error e => ⟨503, Json.obj [("status", Json.str "unhealthy"),
                                ("timestamp", Json.str iso),
                                ("database", Json.str "disconnected"),
                                ("error", Json.str e.message)]⟩

/-- the express global error handler: a constant generic 500, whatever the
error was. -/
def globalErrorHandler (_e : JsError) : HttpResponse := ⟨500, internalErrorBody⟩

/-- the authentication gates `authenticateWebhook` / `authenticateSubmission`:
with a falsy secret the gate passes every request through; with a secret
configured, a falsy or mismatched `x-auth-token` is rejected. -/
def authGate (secret token : Option String) : Bool :=
  if strTruthy secret then
    if strTruthy token then token == secret else false
  else true

/-- the 401 body of the authentication gates. -/
def unauthorizedBody : Json := Json.obj [("error", Json.str "Unauthorized")]

/-- an endpoint behind an authentication gate: the handler runs only when the
gate passes; a rejected request gets a 401 and the store is untouched. -/
def gatedHandler {σ : Type} (secret token : Option String)
    (handler : σ → HttpResponse × σ) (store : σ) : HttpResponse × σ :=
  if authGate secret token then handler store else (⟨401, unauthorizedBody⟩, store)

/-- a non-empty all-decimal-digit string. -/
def isDigitStr (s : String) : Prop := s ≠ "" ∧ ∀ c ∈ s.data, c.isDigit = true

/-- a non-empty all-alphanumeric string. -/
def isAlnumStr (s : String) : Prop := s ≠ "" ∧ ∀ c ∈ s.data, c.isAlphanum = true

/-- the id pattern `F_<digits>_<alnum>` of the claim: the form id, an
underscore, a non-empty run of decimal digits, an underscore, and a non-empty
alphanumeric suffix. -/
def matchesIdPattern (formId id : String) : Prop :=
  ∃ ds suf, id = formId ++ "_" ++ ds ++ "_" ++ suf ∧ isDigitStr ds ∧ isAlnumStr suf

/-! Helper lemmas. -/

theorem list_map_self {α : Type} (l : List α) (f : α → α) (h : ∀ a ∈ l, f a = a) :
    l.map f = l := by
  induction l with
  | nil => rfl
  | cons a t ih =>
    simp only [List.map_cons, h a (List.mem_cons_self a t),
      ih (fun x hx => h x (List.mem_cons_of_mem a hx))]

theorem takeWhile_app_all {α : Type} (p : α → Bool) (xs ys : List α)
    (hx : ∀ x ∈ xs, p x = true) (hy : ∀ c, ys.head? = some c → p c = false) :
    (xs ++ ys).takeWhile p = xs := by
  induction xs with
  | nil =>
    cases ys with
    | nil => rfl
    | cons y t => simp [List.takeWhile_cons, hy y rfl]
  | cons x t ih =>
    simp [List.takeWhile_cons, hx x (List.mem_cons_self x t),
      ih (fun a ha => hx a (List.mem_cons_of_mem x ha))]

theorem dropWhile_app_all {α : Type} (p : α → Bool) (xs ys : List α)
    (hx : ∀ x ∈ xs, p x = true) (hy : ∀ c, ys.head? = some c → p c = false) :
    (xs ++ ys).dropWhile p = ys := by
  induction xs with
  | nil =>
    cases ys with
    | nil => rfl
    | cons y t => simp [List.dropWhile_cons, hy y rfl]
  | cons x t ih =>
    simp [List.dropWhile_cons, hx x (List.mem_cons_self x t),
      ih (fun a ha => hx a (List.mem_cons_of_mem x ha))]

theorem digitCh_isDigit (d : Nat) (h : d < 10) : (digitCh d).isDigit = true := by
  interval_cases d <;> decide

theorem digitCh_toNat (d : Nat) (h : d < 10) : (digitCh d).toNat = 48 + d := by
  interval_cases d <;> decide

theorem hexCh_isHex (d : Nat) (h : d < 16) : isHexCh (hexCh d) = true := by
  interval_cases d <;> decide

theorem hexCh_hexVal (d : Nat) (h : d < 16) : hexVal (hexCh d) = d := by
  interval_cases d <;> decide

theorem digitChar36_isAlnum (d : Nat) (h : d < 36) : (digitChar36 d).isAlphanum = true := by
  interval_cases d <;> decide

theorem natDecAux_digits : ∀ f n c, c ∈ natDecAux f n → c.isDigit = true := by
  intro f
  induction f with
  | zero => intro n c hc; simp [natDecAux] at hc
  | succ f ih =>
    intro n c hc
    by_cases h : n = 0
    · simp [natDecAux, h] at hc
    · simp only [natDecAux, h, if_false, List.mem_append, List.mem_singleton] at hc
      rcases hc with hc | hc
      · exact ih _ _ hc
      · subst hc; exact digitCh_isDigit _ (Nat.mod_lt _ (by norm_num))

theorem natDecAux_ne_nil (f n : Nat) (h0 : n ≠ 0) (hf : f ≠ 0) : natDecAux f n ≠ [] := by
  cases f with
  | zero => exact absurd rfl hf
  | succ f => simp [natDecAux, h0]

theorem natDec_foldl : ∀ f n a, n ≤ f →
    (natDecAux f n).foldl (fun a c => 10 * a + (c.toNat - 48)) a
      = a * 10 ^ (natDecAux f n).length + n := by
  intro f
  induction f with
  | zero =>
    intro n a h
    interval_cases n
    simp [natDecAux]
  | succ f ih =>
    intro n a h
    by_cases h0 : n = 0
    · simp [natDecAux, h0]
    · have hdiv : n / 10 ≤ f := by
        have := Nat.div_lt_self (Nat.pos_of_ne_zero h0) (by norm_num : 1 < 10)
        omega
      simp only [natDecAux, h0, if_false, List.foldl_append, List.length_append,
        List.foldl_cons, List.foldl_nil, List.length_singleton]
      rw [ih _ _ hdiv, digitCh_toNat _ (Nat.mod_lt _ (by norm_num)), pow_succ]
      have key : 10 * (n / 10) + n % 10 = n := Nat.div_add_mod n 10
      have h48 : 48 + n % 10 - 48 = n % 10 := by omega
      rw [h48]
      ring_nf
      omega

theorem digitsVal_natDecChars (n : Nat) : digitsVal (natDecChars n) = n := by
  by_cases h : n = 0
  · subst h; rfl
  · simp only [natDecChars, h, if_false, digitsVal]
    have := natDec_foldl n n 0 le_rfl
    simpa using this

theorem natDecChars_digits (n : Nat) (c : Char) (hc : c ∈ natDecChars n) :
    c.isDigit = true := by
  by_cases h : n = 0
  · simp [natDecChars, h] at hc; subst hc; decide
  · simp only [natDecChars, h, if_false] at hc
    exact natDecAux_digits n n c hc

theorem natDecChars_ne_nil (n : Nat) : natDecChars n ≠ [] := by
  by_cases h : n = 0
  · simp [natDecChars, h]
  · simp only [natDecChars, h, if_false]
    exact natDecAux_ne_nil n n h h

theorem leadingDigits_app (xs ys : List Char) (hx : ∀ x ∈ xs, Char.isDigit x = true)
    (hy : ∀ c, ys.head? = some c → Char.isDigit c = false) :
    leadingDigits (xs ++ ys) = (xs, ys) := by
  unfold leadingDigits
  rw [takeWhile_app_all _ _ _ hx hy, dropWhile_app_all _ _ _ hx hy]

theorem parseStrChars_escChars : ∀ (cs rest : List Char),
    parseStrChars (escChars cs ++ '"' :: rest) = some (cs, rest) := by
  intro cs
  induction cs with
  | nil => intro rest; unfold escChars parseStrChars; simp
  | cons c cs ih =>
    intro rest
    simp only [escChars, List.map_cons, List.flatten_cons, List.append_assoc]
    show parseStrChars (escChar c ++ (escChars cs ++ '"' :: rest)) = some (c :: cs, rest)
    by_cases h1 : c = '"'
    · subst h1
      have he : escChar '"' = ['\\', '"'] := by decide
      rw [he]; simp only [List.cons_append, List.nil_append]
      unfold parseStrChars; simp [escDecode, ih]
    by_cases h2 : c = '\\'
    · subst h2
      have he : escChar '\\' = ['\\', '\\'] := by decide
      rw [he]; simp only [List.cons_append, List.nil_append]
      unfold parseStrChars; simp [escDecode, ih]
    by_cases h3 : c = '\x08'
    · subst h3
      have he : escChar '\x08' = ['\\', 'b'] := by decide
      rw [he]; simp only [List.cons_append, List.nil_append]
      unfold parseStrChars; simp [escDecode, ih]
    by_cases h4 : c = '\x09'
    · subst h4
      have he : escChar '\x09' = ['\\', 't'] := by decide
      rw [he]; simp only [List.cons_append, List.nil_append]
      unfold parseStrChars; simp [escDecode, ih]
    by_cases h5 : c = '\x0a'
    · subst h5
      have he : escChar '\x0a' = ['\\', 'n'] := by decide
      rw [he]; simp only [List.cons_append, List.nil_append]
      unfold parseStrChars; simp [escDecode, ih]
    by_cases h6 : c = '\x0c'
    · subst h6
      have he : escChar '\x0c' = ['\\', 'f'] := by decide
      rw [he]; simp only [List.cons_append, List.nil_append]
      unfold parseStrChars; simp [escDecode, ih]
    by_cases h7 : c = '\x0d'
    · subst h7
      have he : escChar '\x0d' = ['\\', 'r'] := by decide
      rw [he]; simp only [List.cons_append, List.nil_append]
      unfold parseStrChars; simp [escDecode, ih]
    by_cases h8 : c.toNat < 32
    · have hd : c.toNat / 16 < 16 := by omega
      have hm : c.toNat % 16 < 16 := Nat.mod_lt _ (by norm_num)
      have he : escChar c = ['\\', 'u', '0', '0', hexCh (c.toNat / 16), hexCh (c.toNat % 16)] := by
        simp [escChar, h1, h2, h3, h4, h5, h6, h7, h8]
      have h0 : hexVal '0' = 0 := by decide
      have hx0 : isHexCh '0' = true := by decide
      have hnum : ((hexVal '0' * 16 + hexVal '0') * 16 + hexVal (hexCh (c.toNat / 16))) * 16
          + hexVal (hexCh (c.toNat % 16)) = c.toNat := by
        rw [h0, hexCh_hexVal _ hd, hexCh_hexVal _ hm]; omega
      rw [he]; simp only [List.cons_append, List.nil_append]
      unfold parseStrChars
      simp [hx0, hexCh_isHex _ hd, hexCh_isHex _ hm, hnum, Char.ofNat_toNat, ih]
    · have he : escChar c = [c] := by
        simp [escChar, h1, h2, h3, h4, h5, h6, h7, h8]
      rw [he]; simp only [List.cons_append, List.nil_append]
      unfold parseStrChars
      rw [if_neg h1, if_neg h2, ih]
      rfl

theorem asString_data (s : String) : s.data.asString = s := rfl

theorem sizeV_pos (j : Json) : 0 < sizeV j := by cases j <;> simp [sizeV]

theorem sizeA_pos (vs : List Json) : 0 < sizeA vs := by cases vs <;> simp [sizeA]

theorem sizeO_pos (ms : List (String × Json)) : 0 < sizeO ms := by
  cases ms with
  | nil => simp [sizeO]
  | cons m ms => obtain ⟨k, v⟩ := m; simp [sizeO]

theorem digit_ne_lit (c : Char) (h : c.isDigit = true) :
    c ≠ 'n' ∧ c ≠ 't' ∧ c ≠ 'f' ∧ c ≠ '"' ∧ c ≠ '[' ∧ c ≠ '\x7b' ∧ c ≠ '-' := by
  refine ⟨?_, ?_, ?_, ?_, ?_, ?_, ?_⟩ <;> intro he <;> subst he <;> revert h <;> decide

theorem emitVal_cons (j : Json) : ∃ c cs, emitVal j = c :: cs ∧ c ≠ ']' := by
  cases j with
  | null => exact ⟨'n', _, rfl, by decide⟩
  | bool b =>
    cases b with
    | false => exact ⟨'f', _, rfl, by decide⟩
    | true => exact ⟨'t', _, rfl, by decide⟩
  | num n =>
    by_cases hn : n < 0
    · exact ⟨'-', natDecChars n.natAbs, by simp [emitVal, intChars, hn], by decide⟩
    · obtain ⟨c, cs, hc⟩ : ∃ c cs, natDecChars n.toNat = c :: cs := by
        cases h : natDecChars n.toNat with
        | nil => exact absurd h (natDecChars_ne_nil _)
        | cons a b => exact ⟨a, b, rfl⟩
      have hd : c.isDigit = true :=
        natDecChars_digits n.toNat c (by rw [hc]; exact List.mem_cons_self _ _)
      refine ⟨c, cs, by simp [emitVal, intChars, hn, hc], ?_⟩
      intro he; subst he; revert hd; decide
  | str s => exact ⟨'"', _, rfl, by decide⟩
  | arr l => exact ⟨'[', _, rfl, by decide⟩
  | obj l => exact ⟨'\x7b', _, rfl, by decide⟩

theorem emitArrTail_head (vs : List Json) (r : List Char) :
    ∀ c, (emitArrTail vs ++ r).head? = some c → c.isDigit = false := by
  intro c h
  cases vs with
  | nil => simp [emitArrTail] at h; subst h; rfl
  | cons v vs => simp [emitArrTail] at h; subst h; rfl

theorem emitObjTail_head (ms : List (String × Json)) (r : List Char) :
    ∀ c, (emitObjTail ms ++ r).head? = some c → c.isDigit = false := by
  intro c h
  cases ms with
  | nil => simp [emitObjTail] at h; subst h; rfl
  | cons m ms =>
    obtain ⟨k, v⟩ := m
    simp [emitObjTail] at h; subst h; rfl

theorem parseVal_succ_cons (f : Nat) (c : Char) (tail : List Char) :
    parseVal (f + 1) (c :: tail)
      = (if c = 'n' then
           match tail with
           | 'u' :: 'l' :: 'l' :: r => some (Json.null, r)
           | _ => none
         else if c = 't' then
           match tail with
           | 'r' :: 'u' :: 'e' :: r => some (Json.bool true, r)
           | _ => none
         else if c = 'f' then
           match tail with
           | 'a' :: 'l' :: 's' :: 'e' :: r => some (Json.bool false, r)
           | _ => none
         else if c = '"' then
           (parseStrChars tail).map (fun p => (Json.str p.1.asString, p.2))
         else if c = '[' then
           if tail.head? = some ']' then some (Json.arr [], tail.tail)
           else
             match parseVal f tail with
             | none => none
             | some (v, r) =>
               match parseArrRest f r with
               | none => none
               | some (vs, r2) => some (Json.arr (v :: vs), r2)
         else if c = '\x7b' then
           if tail.head? = some '\x7d' then some (Json.obj [], tail.tail)
           else
             match tail with
             | '"' :: kr =>
               match parseStrChars kr with
               | none => none
               | some (k, r1) =>
                 match r1 with
                 | ':' :: r2 =>
                   match parseVal f r2 with
                   | none => none
                   | some (v, r3) =>
                     match parseObjRest f r3 with
                     | none => none
                     | some (ms, r4) => some (Json.obj ((k.asString, v) :: ms), r4)
                 | _ => none
             | _ => none
         else if c = '-' then
           let p := leadingDigits tail
           if p.1.isEmpty then none else some (Json.num (-(digitsVal p.1 : Int)), p.2)
         else if c.isDigit then
           let p := leadingDigits (c :: tail)
           some (Json.num (digitsVal p.1), p.2)
         else none) := by rfl

theorem parseArrRest_succ_comma (f : Nat) (r : List Char) :
    parseArrRest (f + 1) (',' :: r)
      = (match parseVal f r with
         | none => none
         | some (v, r1) =>
           match parseArrRest f r1 with
           | none => none
           | some (vs, r2) => some (v :: vs, r2)) := by rfl

theorem parseObjRest_succ_comma (f : Nat) (r : List Char) :
    parseObjRest (f + 1) (',' :: r)
      = (match r with
         | '"' :: kr =>
           match parseStrChars kr with
           | none => none
           | some (k, r1) =>
             match r1 with
             | ':' :: r2 =>
               match parseVal f r2 with
               | none => none
               | some (v, r3) =>
                 match parseObjRest f r3 with
                 | none => none
                 | some (ms, r4) => some ((k.asString, v) :: ms, r4)
             | _ => none
         | _ => none) := by rfl

theorem parse_emit : ∀ f : Nat,
    (∀ (j : Json) (rest : List Char), sizeV j ≤ f →
      (∀ c, rest.head? = some c → c.isDigit = false) →
      parseVal f (emitVal j ++ rest) = some (j, rest))
  ∧ (∀ (vs : List Json) (rest : List Char), sizeA vs ≤ f →
      parseArrRest f (emitArrTail vs ++ rest) = some (vs, rest))
  ∧ (∀ (ms : List (String × Json)) (rest : List Char), sizeO ms ≤ f →
      parseObjRest f (emitObjTail ms ++ rest) = some (ms, rest)) := by
  intro f
  induction f with
  | zero =>
    refine ⟨?_, ?_, ?_⟩
    · intro j rest h _; have := sizeV_pos j; omega
    · intro vs rest h; have := sizeA_pos vs; omega
    · intro ms rest h; have := sizeO_pos ms; omega
  | succ f ih =>
    obtain ⟨ihV, ihA, ihO⟩ := ih
    refine ⟨?_, ?_, ?_⟩
    · intro j rest hsz hrest
      cases j with
      | null => rfl
      | bool b =>
        cases b with
        | false => rfl
        | true => rfl
      | num n =>
        by_cases hn : n < 0
        · have hemit : emitVal (.num n) ++ rest = '-' :: (natDecChars n.natAbs ++ rest) := by
            simp [emitVal, intChars, hn]
          rw [hemit, parseVal_succ_cons]
          have hdig : ∀ x ∈ natDecChars n.natAbs, Char.isDigit x = true :=
            fun x hx => natDecChars_digits _ x hx
          have hld := leadingDigits_app (natDecChars n.natAbs) rest hdig hrest
          obtain ⟨c, cs, hc⟩ : ∃ c cs, natDecChars n.natAbs = c :: cs := by
            cases h : natDecChars n.natAbs with
            | nil => exact absurd h (natDecChars_ne_nil _)
            | cons a b => exact ⟨a, b, rfl⟩
          have hie : (natDecChars n.natAbs).isEmpty = false := by rw [hc]; rfl
          have hval : (-(digitsVal (natDecChars n.natAbs) : Int)) = n := by
            rw [digitsVal_natDecChars, Int.ofNat_natAbs_of_nonpos (le_of_lt hn)]; simp
          simp [hld, hie, hval]
        · obtain ⟨c, cs, hc⟩ : ∃ c cs, natDecChars n.toNat = c :: cs := by
            cases h : natDecChars n.toNat with
            | nil => exact absurd h (natDecChars_ne_nil _)
            | cons a b => exact ⟨a, b, rfl⟩
          have hdig : ∀ x ∈ natDecChars n.toNat, Char.isDigit x = true :=
            fun x hx => natDecChars_digits _ x hx
          have hcdig : c.isDigit = true := hdig c (by rw [hc]; exact List.mem_cons_self _ _)
          obtain ⟨g1, g2, g3, g4, g5, g6, g7⟩ := digit_ne_lit c hcdig
          have hemit : emitVal (.num n) ++ rest = c :: (cs ++ rest) := by
            simp [emitVal, intChars, hn, hc]
          rw [hemit, parseVal_succ_cons]
          rw [if_neg g1, if_neg g2, if_neg g3, if_neg g4, if_neg g5, if_neg g6, if_neg g7,
            if_pos hcdig]
          have hld : leadingDigits (c :: (cs ++ rest)) = (c :: cs, rest) := by
            have hsplit : c :: (cs ++ rest) = (c :: cs) ++ rest := by simp
            rw [hsplit]
            exact leadingDigits_app _ _ (by rw [← hc]; exact hdig) hrest
          simp only [hld]
          rw [← hc, digitsVal_natDecChars]
          have hnn : ((n.toNat : Int)) = n := Int.toNat_of_nonneg (by omega)
          rw [hnn]
      | str s =>
        have hemit : emitVal (.str s) ++ rest = '"' :: (escChars s.data ++ '"' :: rest) := by
          simp [emitVal, strChars]
        rw [hemit, parseVal_succ_cons]
        simp [parseStrChars_escChars, asString_data]
      | arr l =>
        cases l with
        | nil => rfl
        | cons v vs =>
          have h1 := Nat.le_max_left (sizeV v) (sizeA vs)
          have h2 := Nat.le_max_right (sizeV v) (sizeA vs)
          simp only [sizeV, sizeA] at hsz
          have hszv : sizeV v ≤ f := by omega
          have hsza : sizeA vs ≤ f := by omega
          obtain ⟨c0, cs0, hc0, hc0ne⟩ := emitVal_cons v
          have hemit : emitVal (.arr (v :: vs)) ++ rest
              = '[' :: (emitVal v ++ (emitArrTail vs ++ rest)) := by
            simp [emitVal, emitArr]
          rw [hemit]
          have hne_nil : emitVal v ≠ [] := by rw [hc0]; simp
          have hh1 : ¬ ((emitVal v).head? = some ']') := by
            rw [hc0]; simp; intro h; exact hc0ne h
          have hv := ihV v (emitArrTail vs ++ rest) hszv (emitArrTail_head vs rest)
          have ha := ihA vs rest hsza
          rw [parseVal_succ_cons]
          simp [hv, ha, hh1, hne_nil]
      | obj l =>
        cases l with
        | nil => rfl
        | cons m ms =>
          obtain ⟨k, v⟩ := m
          have h1 := Nat.le_max_left (sizeV v) (sizeO ms)
          have h2 := Nat.le_max_right (sizeV v) (sizeO ms)
          simp only [sizeV, sizeO] at hsz
          have hszv : sizeV v ≤ f := by omega
          have hszo : sizeO ms ≤ f := by omega
          have hemit : emitVal (.obj ((k, v) :: ms)) ++ rest
              = '\x7b' :: ('"' :: (escChars k.data
                  ++ '"' :: (':' :: (emitVal v ++ (emitObjTail ms ++ rest))))) := by
            simp [emitVal, emitObj, strChars]
          rw [hemit]
          have hstr := parseStrChars_escChars k.data
            (':' :: (emitVal v ++ (emitObjTail ms ++ rest)))
          have hv := ihV v (emitObjTail ms ++ rest) hszv (emitObjTail_head ms rest)
          have ho := ihO ms rest hszo
          rw [parseVal_succ_cons]
          simp [hstr, hv, ho, asString_data]
    · intro vs rest hsz
      cases vs with
      | nil => rfl
      | cons v vs =>
        have h1 := Nat.le_max_left (sizeV v) (sizeA vs)
        have h2 := Nat.le_max_right (sizeV v) (sizeA vs)
        simp only [sizeA] at hsz
        have hszv : sizeV v ≤ f := by omega
        have hsza : sizeA vs ≤ f := by omega
        have hemit : emitArrTail (v :: vs) ++ rest
            = ',' :: (emitVal v ++ (emitArrTail vs ++ rest)) := by
          simp [emitArrTail]
        rw [hemit]
        have hv := ihV v (emitArrTail vs ++ rest) hszv (emitArrTail_head vs rest)
        have ha := ihA vs rest hsza
        rw [parseArrRest_succ_comma]
        simp [hv, ha]
    · intro ms rest hsz
      cases ms with
      | nil => rfl
      | cons m ms =>
        obtain ⟨k, v⟩ := m
        have h1 := Nat.le_max_left (sizeV v) (sizeO ms)
        have h2 := Nat.le_max_right (sizeV v) (sizeO ms)
        simp only [sizeO] at hsz
        have hszv : sizeV v ≤ f := by omega
        have hszo : sizeO ms ≤ f := by omega
        have hemit : emitObjTail ((k, v) :: ms) ++ rest
            = ',' :: ('"' :: (escChars k.data
                ++ '"' :: (':' :: (emitVal v ++ (emitObjTail ms ++ rest))))) := by
          simp [emitObjTail, strChars]
        rw [hemit]
        have hstr := parseStrChars_escChars k.data
          (':' :: (emitVal v ++ (emitObjTail ms ++ rest)))
        have hv := ihV v (emitObjTail ms ++ rest) hszv (emitObjTail_head ms rest)
        have ho := ihO ms rest hszo
        rw [parseObjRest_succ_comma]
        simp [hstr, hv, ho, asString_data]

theorem emitVal_length_pos (j : Json) : 1 ≤ (emitVal j).length := by
  obtain ⟨c, cs, hc, _⟩ := emitVal_cons j
  rw [hc]; simp

theorem emitArrTail_length_pos (vs : List Json) : 1 ≤ (emitArrTail vs).length := by
  cases vs <;> simp [emitArrTail]

theorem emitObjTail_length_pos (ms : List (String × Json)) : 1 ≤ (emitObjTail ms).length := by
  cases ms with
  | nil => simp [emitObjTail]
  | cons m ms => obtain ⟨k, v⟩ := m; simp [emitObjTail]

theorem emit_length_bounds : ∀ n : Nat,
    (∀ j : Json, sizeOf j ≤ n → sizeV j ≤ (emitVal j).length + 1)
  ∧ (∀ vs : List Json, sizeOf vs ≤ n → sizeA vs ≤ (emitArrTail vs).length)
  ∧ (∀ ms : List (String × Json), sizeOf ms ≤ n → sizeO ms ≤ (emitObjTail ms).length) := by
  intro n
  induction n using Nat.strong_induction_on with
  | _ n ih =>
    refine ⟨?_, ?_, ?_⟩
    · intro j hsz
      cases j with
      | null => simp [sizeV, emitVal]
      | bool b => cases b <;> simp [sizeV, emitVal]
      | num m => simp [sizeV]
      | str s => simp [sizeV]
      | arr l =>
        cases l with
        | nil => simp [sizeV, sizeA, emitVal, emitArr]
        | cons v vs =>
          have hltv : sizeOf v < n := by
            have : sizeOf v < sizeOf (Json.arr (v :: vs)) := by simp; omega
            omega
          have hltvs : sizeOf vs < n := by
            have : sizeOf vs < sizeOf (Json.arr (v :: vs)) := by simp; omega
            omega
          have hv := (ih _ hltv).1 v le_rfl
          have ha := (ih _ hltvs).2.1 vs le_rfl
          have p1 := emitVal_length_pos v
          have p2 := emitArrTail_length_pos vs
          simp only [sizeV, sizeA, emitVal, emitArr, List.length_cons, List.length_append]
          rcases Nat.le_total (sizeV v) (sizeA vs) with h | h
          · rw [Nat.max_eq_right h]; omega
          · rw [Nat.max_eq_left h]; omega
      | obj l =>
        cases l with
        | nil => simp [sizeV, sizeO, emitVal, emitObj]
        | cons m ms =>
          obtain ⟨k, v⟩ := m
          have hltv : sizeOf v < n := by
            have : sizeOf v < sizeOf (Json.obj ((k, v) :: ms)) := by simp; omega
            omega
          have hltms : sizeOf ms < n := by
            have : sizeOf ms < sizeOf (Json.obj ((k, v) :: ms)) := by simp; omega
            omega
          have hv := (ih _ hltv).1 v le_rfl
          have ho := (ih _ hltms).2.2 ms le_rfl
          have p1 := emitVal_length_pos v
          have p2 := emitObjTail_length_pos ms
          simp only [sizeV, sizeO, emitVal, emitObj, List.length_cons, List.length_append]
          rcases Nat.le_total (sizeV v) (sizeO ms) with h | h
          · rw [Nat.max_eq_right h]; omega
          · rw [Nat.max_eq_left h]; omega
    · intro vs hsz
      cases vs with
      | nil => simp [sizeA, emitArrTail]
      | cons v vs =>
        have hltv : sizeOf v < n := by
          have : sizeOf v < sizeOf (v :: vs) := by simp; omega
          omega
        have hltvs : sizeOf vs < n := by
          have : sizeOf vs < sizeOf (v :: vs) := by simp
          omega
        have hv := (ih _ hltv).1 v le_rfl
        have ha := (ih _ hltvs).2.1 vs le_rfl
        have p1 := emitVal_length_pos v
        have p2 := emitArrTail_length_pos vs
        simp only [sizeA, emitArrTail, List.length_cons, List.length_append]
        rcases Nat.le_total (sizeV v) (sizeA vs) with h | h
        · rw [Nat.max_eq_right h]; omega
        · rw [Nat.max_eq_left h]; omega
    · intro ms hsz
      cases ms with
      | nil => simp [sizeO, emitObjTail]
      | cons m ms =>
        obtain ⟨k, v⟩ := m
        have hltv : sizeOf v < n := by
          have : sizeOf v < sizeOf ((k, v) :: ms) := by simp; omega
          omega
        have hltms : sizeOf ms < n := by
          have : sizeOf ms < sizeOf ((k, v) :: ms) := by simp
          omega
        have hv := (ih _ hltv).1 v le_rfl
        have ho := (ih _ hltms).2.2 ms le_rfl
        have p1 := emitVal_length_pos v
        have p2 := emitObjTail_length_pos ms
        simp only [sizeO, emitObjTail, List.length_cons, List.length_append]
        rcases Nat.le_total (sizeV v) (sizeO ms) with h | h
        · rw [Nat.max_eq_right h]; omega
        · rw [Nat.max_eq_left h]; omega

theorem jsonParse_stringify (j : Json) : jsonParse (jsonStringify j) = some j := by
  have hb : sizeV j ≤ (emitVal j).length + 1 := (emit_length_bounds (sizeOf j)).1 j le_rfl
  have h := (parse_emit ((emitVal j).length + 1)).1 j [] hb (by intro c hc; simp at hc)
  rw [List.append_nil] at h
  have hd : ((emitVal j).asString).data = emitVal j := rfl
  have hl : ((emitVal j).asString).length = (emitVal j).length := rfl
  unfold jsonParse jsonStringify
  simp [hd, hl, h]

theorem str_length_pos_of_ne (s : String) (h : s ≠ "") : 1 ≤ s.length := by
  cases s with
  | mk data =>
    cases data with
    | nil => exact absurd rfl h
    | cons c cs => simp [String.length]

theorem find?_save (store : List StructureRow) (F : String) (D : Json) (rowId now : Nat) :
    getWebformStructure (saveWebformStructure store F D rowId now) F
      = some ⟨rowId, F, jsonStringify D, 1, true, now, now⟩ := by
  unfold getWebformStructure saveWebformStructure
  rw [List.find?_append]
  have h1 : (store.filter (fun r => r.webform_id != F)).find?
      (fun r => r.webform_id == F && r.is_active) = none := by
    rw [List.find?_eq_none]
    intro x hx
    rw [List.mem_filter] at hx
    have hne := hx.2
    simp at hne ⊢
    intro h
    exact absurd h hne
  rw [h1]
  simp

/-- C7: saving a structure document twice under the same form id makes the
second save fully replace the first: the store after the two saves is the
same as after saving only the second document, and a read returns exactly the
second document's serialized content, with no field of the first merged in. -/
theorem c7_second_save_wins (store : List StructureRow) (F : String) (D1 D2 : Json)
    (r1 t1 r2 t2 : Nat) :
    saveWebformStructure (saveWebformStructure store F D1 r1 t1) F D2 r2 t2
      = saveWebformStructure store F D2 r2 t2
  ∧ (getWebformStructure
        (saveWebformStructure (saveWebformStructure store F D1 r1 t1) F D2 r2 t2) F).map
      (fun r => r.structure_data)
      = some (jsonStringify D2) := by
  have heq : saveWebformStructure (saveWebformStructure store F D1 r1 t1) F D2 r2 t2
      = saveWebformStructure store F D2 r2 t2 := by
    unfold saveWebformStructure
    rw [List.filter_append, List.filter_filter]
    simp
  refine ⟨heq, ?_⟩
  rw [heq, find?_save]
  rfl

/-- C8: for every form id and JSON document (non-empty, as the claim is
scoped), the save-then-get round trip through serialization and parsing is
the identity on the document: the stored text parses back to exactly the
saved document, and the structure GET handler returns the document itself. -/
theorem c8_save_get_roundtrip (store : List StructureRow) (F : String) (D : Json)
    (rowId now : Nat) (hne : D ≠ Json.obj []) :
    (getWebformStructure (saveWebformStructure store F D rowId now) F).map
        (fun r => jsonParse r.structure_data) = some (some D)
  ∧ getStructureHandler (saveWebformStructure store F D rowId now) F
      = ⟨200, Json.obj [("webform_id", Json.str F),
                        ("structure", D),
                        ("created_at", Json.num now),
                        ("updated_at", Json.num now)]⟩ := by
  have hfind := find?_save store F D rowId now
  constructor
  · rw [hfind]
    simp [jsonParse_stringify]
  · unfold getStructureHandler
    rw [hfind]
    simp [jsonParse_stringify]

/-- C8 witness: a concrete non-empty document round-trips through save and
get. -/
theorem c8_save_get_roundtrip_witness :
    Json.obj [("email", Json.str "a@b.com")] ≠ Json.obj []
  ∧ ((getWebformStructure
        (saveWebformStructure [] "F" (Json.obj [("email", Json.str "a@b.com")]) 1 9) "F").map
      (fun r => jsonParse r.structure_data) = some (some (Json.obj [("email", Json.str "a@b.com")]))
    ∧ getStructureHandler
          (saveWebformStructure [] "F" (Json.obj [("email", Json.str "a@b.com")]) 1 9) "F"
        = ⟨200, Json.obj [("webform_id", Json.str "F"),
                          ("structure", Json.obj [("email", Json.str "a@b.com")]),
                          ("created_at", Json.num 9),
                          ("updated_at", Json.num 9)]⟩) :=
  ⟨by simp, c8_save_get_roundtrip [] "F" (Json.obj [("email", Json.str "a@b.com")]) 1 9 (by simp)⟩

/-- C4: draining pending submissions with limit `N` when `M` are pending
returns `min N M` rows, in ascending creation order, all still `'pending'`;
the handler is a pure read (the store is unchanged), so an immediately
repeated drain returns the same submissions. -/
theorem c4_drain_pending_pure_read (store : List SubmissionRow) (N : Nat) (q : Option String) :
    (getSubmissionsByStatus store "pending" (N : Int)).length
        = min N (store.filter (fun r => r.status == "pending")).length
  ∧ List.Pairwise (fun a b => a.created_at ≤ b.created_at)
      (getSubmissionsByStatus store "pending" (N : Int))
  ∧ (∀ r ∈ getSubmissionsByStatus store "pending" (N : Int), r.status = "pending")
  ∧ (pendingSubmissionsHandler store q).2 = store
  ∧ pendingSubmissionsHandler ((pendingSubmissionsHandler store q).2) q
      = pendingSubmissionsHandler store q := by
  have hnn : ¬ ((N : Int) < 0) := by omega
  refine ⟨?_, ?_, ?_, rfl, rfl⟩
  · unfold getSubmissionsByStatus
    rw [if_neg hnn, List.length_take, List.length_mergeSort]
    simp
  · unfold getSubmissionsByStatus
    rw [if_neg hnn]
    have hs := @List.sorted_mergeSort SubmissionRow
      (fun a b : SubmissionRow => decide (a.created_at ≤ b.created_at))
      (fun a b c hab hbc => by
        simp only [decide_eq_true_eq] at hab hbc ⊢; omega)
      (fun a b => by
        simp only [Bool.or_eq_true, decide_eq_true_eq]; omega)
      (store.filter (fun r => r.status == "pending"))
    have hp := List.Pairwise.sublist
      (List.take_sublist ((N : Int).toNat)
        ((store.filter (fun r => r.status == "pending")).mergeSort
          (fun a b => decide (a.created_at ≤ b.created_at)))) hs
    exact hp.imp (fun h => by simpa using h)
  · intro r hr
    unfold getSubmissionsByStatus at hr
    rw [if_neg hnn] at hr
    have h1 : r ∈ (store.filter (fun r => r.status == "pending")).mergeSort
        (fun a b => decide (a.created_at ≤ b.created_at)) :=
      List.take_subset _ _ hr
    rw [List.mem_mergeSort, List.mem_filter] at h1
    simpa using h1.2

/-- C6: a status-update request whose status is outside the recognized set
(`sent`, `failed`, `processing`) is rejected with the 400 client error and
the store is returned unchanged — no stored submission is mutated. -/
theorem c6_invalid_status_rejected (store : List SubmissionRow) (idStr : String)
    (body : List (String × Json)) (s : String) (nowIso : String) (now : Nat)
    (hs : body.lookup "status" = some (Json.str s))
    (h1 : s ≠ "sent") (h2 : s ≠ "failed") (h3 : s ≠ "processing") :
    patchStatusHandler store idStr body nowIso now = (⟨400, invalidStatusBody⟩, store) := by
  unfold patchStatusHandler
  rw [hs]
  simp [h1, h2, h3]

/-- C6 witness: the status `"bogus"` is rejected without touching the stored
row. -/
theorem c6_invalid_status_rejected_witness :
    patchStatusHandler [⟨1, "a", "F", "d", "pending", 0, 1, 1, none, none, none, none⟩] "1"
        [("status", Json.str "bogus")] "T" 0
      = (⟨400, invalidStatusBody⟩,
         [⟨1, "a", "F", "d", "pending", 0, 1, 1, none, none, none, none⟩]) :=
  c6_invalid_status_rejected _ "1" _ "bogus" "T" 0 rfl
    (by decide) (by decide) (by decide)

/-- C10: a status-update request with a valid status whose id matches no
stored row (including a non-numeric id, which `parseInt` turns into NaN)
reports success — 200, `Submission marked as ...` — while mutating no record;
no not-found signal is produced. -/
theorem c10_unmatched_id_reports_success (store : List SubmissionRow) (idStr : String)
    (body : List (String × Json)) (s : String) (nowIso : String) (now : Nat)
    (hs : body.lookup "status" = some (Json.str s))
    (hvalid : s = "sent" ∨ s = "failed" ∨ s = "processing")
    (hnomatch : ∀ r ∈ store, idMatches (parseIntJs idStr) r = false) :
    patchStatusHandler store idStr body nowIso now
      = (⟨200, Json.obj [("success", Json.bool true),
                         ("message", Json.str ("Submission marked as " ++ s)),
                         ("id", jsonOfParsedId (parseIntJs idStr))]⟩, store) := by
  unfold patchStatusHandler
  rw [hs]
  have hstore : updateSubmissionStatus store (parseIntJs idStr) s
      (match body.lookup "error_message" with
       | some (Json.str s) => some s
       | _ => none)
      (if s = "sent" then some nowIso else none) now = store := by
    unfold updateSubmissionStatus
    apply list_map_self
    intro r hr
    rw [hnomatch r hr]
    simp
  simp [hvalid, hstore]

/-- C10 witness: PATCH with the non-numeric id `"abc"` (NaN) and status
`"sent"` on a one-row store replies success and changes nothing. -/
theorem c10_unmatched_id_reports_success_witness :
    patchStatusHandler [⟨1, "a", "F", "d", "pending", 0, 1, 1, none, none, none, none⟩] "abc"
        [("status", Json.str "sent")] "T" 0
      = (⟨200, Json.obj [("success", Json.bool true),
                         ("message", Json.str ("Submission marked as " ++ "sent")),
                         ("id", jsonOfParsedId (parseIntJs "abc"))]⟩,
         [⟨1, "a", "F", "d", "pending", 0, 1, 1, none, none, none, none⟩]) :=
  c10_unmatched_id_reports_success _ "abc" _ "sent" "T" 0 rfl
    (Or.inl rfl) (fun r _ => rfl)

/-- C5 (amended): on a matched row, setting status `'sent'` records the
`sent_at` timestamp and leaves `retry_count` unchanged; `'failed'` increments
`retry_count` by exactly one and (amendment) resets `sent_at` to NULL;
`'processing'` leaves `retry_count` unchanged but (amendment) also
unconditionally overwrites `sent_at` with NULL rather than leaving it
untouched. -/
theorem c5_status_transitions_amended (store : List SubmissionRow) (target : Option Int)
    (em : Option String) (nowIso : String) (now : Nat) (r : SubmissionRow)
    (hr : r ∈ store) (hm : idMatches target r = true) :
    (∃ r', r' ∈ updateSubmissionStatus store target "sent" em (some nowIso) now
        ∧ r'.status = "sent" ∧ r'.sent_at = some nowIso ∧ r'.retry_count = r.retry_count)
  ∧ (∃ r', r' ∈ updateSubmissionStatus store target "failed" em none now
        ∧ r'.status = "failed" ∧ r'.retry_count = r.retry_count + 1 ∧ r'.sent_at = none)
  ∧ (∃ r', r' ∈ updateSubmissionStatus store target "processing" em none now
        ∧ r'.status = "processing" ∧ r'.retry_count = r.retry_count ∧ r'.sent_at = none) := by
  unfold updateSubmissionStatus
  refine ⟨⟨_, List.mem_map_of_mem _ hr, ?_⟩,
          ⟨_, List.mem_map_of_mem _ hr, ?_⟩,
          ⟨_, List.mem_map_of_mem _ hr, ?_⟩⟩ <;> simp [hm]

/-- C5 witness: a concrete matched row under the three transitions. -/
theorem c5_status_transitions_amended_witness :
    (∃ r', r' ∈ updateSubmissionStatus
          [⟨1, "a", "F", "d", "pending", 2, 1, 1, none, none, none, none⟩]
          (some 1) "sent" none (some "T") 7
        ∧ r'.status = "sent" ∧ r'.sent_at = some "T" ∧ r'.retry_count = 2)
  ∧ (∃ r', r' ∈ updateSubmissionStatus
          [⟨1, "a", "F", "d", "pending", 2, 1, 1, none, none, none, none⟩]
          (some 1) "failed" none none 7
        ∧ r'.status = "failed" ∧ r'.retry_count = 2 + 1 ∧ r'.sent_at = none)
  ∧ (∃ r', r' ∈ updateSubmissionStatus
          [⟨1, "a", "F", "d", "pending", 2, 1, 1, none, none, none, none⟩]
          (some 1) "processing" none none 7
        ∧ r'.status = "processing" ∧ r'.retry_count = 2 ∧ r'.sent_at = none) :=
  c5_status_transitions_amended
    [⟨1, "a", "F", "d", "pending", 2, 1, 1, none, none, none, none⟩]
    (some 1) none "T" 7 ⟨1, "a", "F", "d", "pending", 2, 1, 1, none, none, none, none⟩
    (List.mem_cons_self _ _) (by decide)

/-- C5 counterexample: the claim as stated says `'processing'` marks the row
in-flight without touching `sent_at`; but on a row whose `sent_at` was
`some "T1"`, the PATCH to `'processing'` resets `sent_at` to NULL (the SQL
sets `sent_at = ?` unconditionally, with a NULL binding for any status other
than `'sent'`). -/
theorem c5_counterexample_processing_clears_sent_at :
    (patchStatusHandler
        [⟨1, "F_5_abc", "F", "d", "sent", 0, 5, 5, some "T1", none, none, none⟩]
        "1" [("status", Json.str "processing")] "T2" 7).2
      = [⟨1, "F_5_abc", "F", "d", "processing", 0, 5, 7, none, none, none, none⟩] := by
  decide

/-- C9: when the configured secret is falsy the gate is a no-op and the
handler runs whatever the token is (fails open); when a secret is configured,
a falsy or mismatched `x-auth-token` yields the 401 rejection with the store
untouched, before any handler logic runs. -/
theorem c9_auth_gate {σ : Type} (secret token : Option String)
    (handler : σ → HttpResponse × σ) (store : σ) :
    (strTruthy secret = false → gatedHandler secret token handler store = handler store)
  ∧ (strTruthy secret = true → (strTruthy token = false ∨ token ≠ secret) →
      gatedHandler secret token handler store = (⟨401, unauthorizedBody⟩, store)) := by
  constructor
  · intro h
    unfold gatedHandler authGate
    simp [h]
  · intro h htok
    unfold gatedHandler authGate
    rcases htok with h2 | h2
    · simp [h, h2]
    · by_cases ht : strTruthy token
      · simp [h, ht, h2]
      · simp [h, ht]

/-- C9 witness: an unset secret passes any token through; a configured secret
rejects a wrong token with 401. -/
theorem c9_auth_gate_witness :
    gatedHandler none (some "whatever") (fun s : Nat => (⟨200, Json.null⟩, s)) 0
        = ((fun s : Nat => (⟨200, Json.null⟩, s)) 0)
  ∧ gatedHandler (some "sec") (some "bad") (fun s : Nat => (⟨200, Json.null⟩, s)) 0
        = (⟨401, unauthorizedBody⟩, 0) :=
  ⟨(c9_auth_gate none (some "whatever") (fun s : Nat => (⟨200, Json.null⟩, s)) 0).1 rfl,
   (c9_auth_gate (some "sec") (some "bad") (fun s : Nat => (⟨200, Json.null⟩, s)) 0).2 rfl
     (Or.inr (by decide))⟩

/-- C2 counterexample: the claim says every unexpected-failure response body
is the fixed generic server-error object, including the health endpoint's
503; but the health catch block puts the underlying exception's message
(`"boom"`) into the 503 body, which therefore is not the generic object. -/
theorem c2_counterexample_health_leaks_message :
    healthHandler (.error ⟨"boom", "Error", "trace"⟩) "T"
      = ⟨503, Json.obj [("status", Json.str "unhealthy"), ("timestamp", Json.str "T"),
                        ("database", Json.str "disconnected"), ("error", Json.str "boom")]⟩
  ∧ (healthHandler (.error ⟨"boom", "Error", "trace"⟩) "T").body ≠ internalErrorBody := by
  refine ⟨rfl, ?_⟩
  intro h
  simp [healthHandler, internalErrorBody] at h

/-- C2 (amended): every catch block other than the health endpoint's replies
with the fixed generic body, independent of the exception (shown for the
global error handler and the submission handlers' store-failure path, store
untouched); the health endpoint's 503 body carries exactly the fixed
unhealthy fields plus the exception's `message` — no name and no stack. -/
theorem c2_generic_error_body_amended (e : JsError) (iso : String)
    (fid : Option String) (body : List (String × Json)) (nowMs : Nat)
    (fracDigits : List Nat) (ua ip : Option String) (store : List SubmissionRow)
    (hfid : strTruthy fid = true)
    (hdata : jsTruthy (body.lookup "submission_data") = true) :
    globalErrorHandler e = ⟨500, internalErrorBody⟩
  ∧ submissionHandlerCore fid body nowMs iso fracDigits ua ip (.error e) store
      = (⟨500, internalErrorBody⟩, store)
  ∧ healthHandler (.error e) iso
      = ⟨503, Json.obj [("status", Json.str "unhealthy"), ("timestamp", Json.str iso),
                        ("database", Json.str "disconnected"),
                        ("error", Json.str e.message)]⟩ := by
  refine ⟨rfl, ?_, rfl⟩
  cases fid with
  | none => simp [strTruthy] at hfid
  | some f =>
    cases hsd : body.lookup "submission_data" with
    | none => rw [hsd] at hdata; simp [jsTruthy] at hdata
    | some d =>
      unfold submissionHandlerCore
      rw [hsd] at hdata ⊢
      simp [hfid, hdata]

/-- C2 amended witness: a concrete store failure on the submission handler
and the health endpoint. -/
theorem c2_generic_error_body_amended_witness :
    globalErrorHandler ⟨"boom", "Error", "trace"⟩ = ⟨500, internalErrorBody⟩
  ∧ submissionHandlerCore (some "F") [("submission_data", Json.obj [("a", Json.num 1)])]
        5 "T" [1] none none (.error ⟨"boom", "Error", "trace"⟩) []
      = (⟨500, internalErrorBody⟩, [])
  ∧ healthHandler (.error ⟨"boom", "Error", "trace"⟩) "T"
      = ⟨503, Json.obj [("status", Json.str "unhealthy"), ("timestamp", Json.str "T"),
                        ("database", Json.str "disconnected"),
                        ("error", Json.str "boom")]⟩ :=
  c2_generic_error_body_amended ⟨"boom", "Error", "trace"⟩ "T" (some "F")
    [("submission_data", Json.obj [("a", Json.num 1)])] 5 [1] none none [] rfl rfl

/-- C3 (amended): whenever the random draw is nonzero — i.e. has at least one
base-36 fractional digit — the generated submission id matches the pattern
`F_<digits>_<alnum>`: form id, underscore, the decimal epoch-millis digits,
underscore, a non-empty alphanumeric suffix. (When the draw is exactly 0 the
suffix is empty; see the counterexample.) -/
theorem c3_id_pattern_amended (F : String) (nowMs : Nat) (fracDigits : List Nat)
    (hne : fracDigits ≠ []) (hlt : ∀ d ∈ fracDigits, d < 36) :
    matchesIdPattern F (mkSubmissionId F nowMs fracDigits) := by
  refine ⟨natDec nowMs, randomSuffix fracDigits, rfl, ⟨?_, ?_⟩, ⟨?_, ?_⟩⟩
  · intro h
    exact natDecChars_ne_nil nowMs (congrArg String.data h)
  · intro c hc
    exact natDecChars_digits nowMs c hc
  · cases fracDigits with
    | nil => exact absurd rfl hne
    | cons d ds =>
      intro h
      have : randomSuffix (d :: ds) = ⟨digitChar36 d :: (ds.map digitChar36).take 6⟩ := by
        unfold randomSuffix jsRandomToString36
        simp [List.asString]
      rw [this] at h
      exact absurd (congrArg String.data h) (by simp)
  · intro c hc
    have hdata : (randomSuffix fracDigits).data
        = (fracDigits.map digitChar36).take 7 := by
      unfold randomSuffix jsRandomToString36
      cases fracDigits with
      | nil => exact absurd rfl hne
      | cons d ds => simp [List.asString]
    rw [hdata] at hc
    have hc2 := List.take_subset _ _ hc
    rw [List.mem_map] at hc2
    obtain ⟨d, hd, hdc⟩ := hc2
    rw [← hdc]
    exact digitChar36_isAlnum d (hlt d hd)

/-- C3 witness: a concrete nonzero draw yields a pattern-conforming id. -/
theorem c3_id_pattern_amended_witness :
    matchesIdPattern "F" (mkSubmissionId "F" 5 [1, 2, 3]) :=
  c3_id_pattern_amended "F" 5 [1, 2, 3] (by decide) (by decide)

/-- C3 counterexample: when `Math.random()` returns exactly 0 its base-36
rendering is `"0"`, `substring(2, 9)` of it is empty, and the generated id
`F_5_` has an empty suffix — it does not match `F_<digits>_<alnum>` with a
non-empty alphanumeric suffix as the claim states for every enqueue. -/
theorem c3_counterexample_empty_suffix :
    mkSubmissionId "F" 5 [] = "F_5_"
  ∧ ¬ matchesIdPattern "F" (mkSubmissionId "F" 5 []) := by
  have hid : mkSubmissionId "F" 5 [] = "F_5_" := rfl
  refine ⟨hid, ?_⟩
  rw [hid]
  rintro ⟨ds, suf, heq, ⟨hds, _⟩, ⟨hsuf, _⟩⟩
  have hlds := str_length_pos_of_ne ds hds
  have hlsuf := str_length_pos_of_ne suf hsuf
  have hlen := congrArg String.length heq
  simp only [String.length_append] at hlen
  have e1 : ("F_5_" : String).length = 4 := rfl
  have e2 : ("F" : String).length = 1 := rfl
  have e3 : ("_" : String).length = 1 := rfl
  simp only [e1, e2, e3] at hlen
  omega

/-- C1: enqueuing a submission. The Express handler (src/index.js) reads
`form_id` from the params map although the route parameter is named
`webform_id`, so even a well-formed POST with `submission_data` is answered
400 `Missing form_id or submission_data` and nothing is stored; the Hono
handler (src/unnamed/part_000) reads the declared `webform_id` parameter and
behaves as the claim states: it assigns the submission id and timestamp
server-side, stores the submission as `'pending'`, and returns the id. -/
theorem c1_submission_enqueue_code_bug :
    expressSubmissionHandler [("webform_id", "F")]
        [("submission_data", Json.obj [("email", Json.str "a@b.com")])]
        5 "T0" [1, 2, 3] none none (.ok 1) []
      = (⟨400, missingSubmissionBody⟩, [])
  ∧ honoSubmissionHandler [("webform_id", "F")]
        [("submission_data", Json.obj [("email", Json.str "a@b.com")])]
        5 "T0" [1, 2, 3] none none (.ok 1) []
      = (⟨200, Json.obj [("success", Json.bool true),
                         ("message", Json.str "Submission received and saved"),
                         ("submission_id", Json.str "F_5_123"),
                         ("db_id", Json.num 1)]⟩,
         [⟨1, "F_5_123", "F",
           "\x7b\"email\":\"a@b.com\",\"timestamp\":\"T0\",\"submission_id\":\"F_5_123\"\x7d",
           "pending", 0, 5, 5, none, none, none, none⟩]) :=
  ⟨rfl, rfl⟩

end CivicForm
